import Mathlib

/-!
# Solar-System-Simulation: orbital motion model and camera math

A shallow embedding of `src/main.cpp`.  The C++ `float` arithmetic is read over the
real numbers: `sqrtf`, `cosf`, `sinf`, `tanf` and `(float)M_PI` become `Real.sqrt`,
`Real.cos`, `Real.sin`, `Real.tan` and `Real.pi`, and a decimal literal such as
`0.2056f` is the decimal it is written as.  Calls into OpenGL are recorded as values
of `GLCall`; their action on the current matrix follows the OpenGL fixed-function
reference (right multiplication of the current matrix, column-major arrays).

Where a statement depends on rounding, the same source lines are also given in binary32
arithmetic (`F32`, `renderScene.angleF32`, `drawOrbitEllipse.bF32`, `renderScene.bF32`),
so that the real-number reading and the computed `float` values can be told apart.
-/

namespace SolarSystem

/-! ## Constants and the catalog (main.cpp 11-35) -/

/-- Distance scale: 1 AU is 2 OpenGL units. -/
noncomputable def AU_TO_UNITS : ℝ := 2.0

/-- Time scale: the source comments it as "1 real year == 20 seconds". -/
noncomputable def SIM_YEARS_TO_SECONDS : ℝ := 20.0

/-- The `Planet` record of the source. -/
structure Planet where
  name : String
  a_au : ℝ
  e : ℝ
  period_days : ℝ
  size : ℝ
  color : Fin 3 → ℝ

/-- The global catalog `planets`, in source order. -/
noncomputable def planets : List Planet :=
  [ ⟨"Mercury", 0.387, 0.2056, 88.0, 0.12, ![0.7, 0.7, 0.7]⟩,
    ⟨"Venus", 0.723, 0.0068, 224.7, 0.16, ![0.95, 0.8, 0.3]⟩,
    ⟨"Earth", 1.000, 0.0167, 365.25, 0.17, ![0.2, 0.5, 1.0]⟩,
    ⟨"Mars", 1.524, 0.0934, 687.0, 0.14, ![1.0, 0.4, 0.2]⟩,
    ⟨"Jupiter", 5.203, 0.0484, 4331.0, 0.40, ![1.0, 0.8, 0.6]⟩,
    ⟨"Saturn", 9.537, 0.0542, 10747.0, 0.35, ![0.95, 0.9, 0.6]⟩,
    ⟨"Uranus", 19.191, 0.0472, 30589.0, 0.28, ![0.5, 0.85, 0.9]⟩,
    ⟨"Neptune", 30.068, 0.0086, 60190.0, 0.28, ![0.35, 0.45, 1.0]⟩ ]

/-! ## OpenGL calls issued by the modelled functions -/

/-- The OpenGL entry points that `lookAt`, `perspectiveGL`, `drawOrbitEllipse` and the
planet loop of `renderScene` call with computed arguments. -/
inductive GLCall where
  | glMultMatrixf (m : Fin 16 → ℝ)
  | glTranslatef (x y z : ℝ)
  | glFrustum (left right bottom top zNear zFar : ℝ)
  | glVertex3f (x y z : ℝ)

/-- A 4x4 real matrix, the type of the OpenGL current matrix. -/
abbrev Mat4 := Matrix (Fin 4) (Fin 4) ℝ

/-- The matrix denoted by the 16-element array handed to `glMultMatrixf`: OpenGL reads
the array in column-major order, so entry `(i, j)` is element `4 * j + i`. -/
def colMajor (m : Fin 16 → ℝ) : Mat4 :=
  Matrix.of fun i j => m ⟨4 * j.val + i.val, by omega⟩

/-- The matrix `glTranslatef(x, y, z)` multiplies the current matrix by. -/
def translation (x y z : ℝ) : Mat4 :=
  !![1, 0, 0, x; 0, 1, 0, y; 0, 0, 1, z; 0, 0, 0, 1]

/-- The matrix `glFrustum(l, r, b, t, n, f)` multiplies the current matrix by. -/
noncomputable def frustum (l r b t n f : ℝ) : Mat4 :=
  !![2 * n / (r - l), 0, (r + l) / (r - l), 0;
     0, 2 * n / (t - b), (t + b) / (t - b), 0;
     0, 0, -(f + n) / (f - n), -(2 * f * n) / (f - n);
     0, 0, -1, 0]

/-- The effect of one call on the current matrix `C`: the three matrix calls multiply it
on the right, `glVertex3f` leaves it as it is. -/
noncomputable def GLCall.apply (C : Mat4) : GLCall → Mat4
  | GLCall.glMultMatrixf m => C * colMajor m
  | GLCall.glTranslatef x y z => C * translation x y z
  | GLCall.glFrustum l r b t n f => C * frustum l r b t n f
  | GLCall.glVertex3f _ _ _ => C

/-- The current matrix after a sequence of calls, starting from `C`. -/
noncomputable def applyCalls (C : Mat4) (cs : List GLCall) : Mat4 :=
  cs.foldl GLCall.apply C

/-- A point as the homogeneous column vector OpenGL transforms. -/
def homog (p : Fin 3 → ℝ) : Fin 4 → ℝ := ![p 0, p 1, p 2, 1]

/-! ## Orbit outline (main.cpp 63-73) -/

/-- The local `b` of `drawOrbitEllipse`: `a * sqrtf(1.0f - e * e)`. -/
noncomputable def drawOrbitEllipse.b (a e : ℝ) : ℝ :=
  a * Real.sqrt (1.0 - e * e)

/-- The vertices `drawOrbitEllipse` emits between `glBegin(GL_LINE_LOOP)` and `glEnd()`:
one per `i` with `0 <= i < segments`. -/
noncomputable def drawOrbitEllipse (a e : ℝ) (segments : ℤ) : List GLCall :=
  let b := drawOrbitEllipse.b a e
  (List.range segments.toNat).map fun i =>
    let theta := (2.0 * Real.pi * (i : ℝ)) / (segments : ℝ)
    let x := a * Real.cos theta
    let z := b * Real.sin theta
    GLCall.glVertex3f x 0.0 z

/-! ## Per-body computation of the planet loop (main.cpp 141-169) -/

/-- The locals of one iteration of the planet loop of `renderScene`. -/
structure BodyPose where
  a : ℝ
  e : ℝ
  b : ℝ
  yearsPerOrbit : ℝ
  angVel : ℝ
  angle : ℝ
  x : ℝ
  z : ℝ

/-- One iteration of the planet loop of `renderScene` for body `p` at time `t`, with the
two scaling constants as parameters (the program runs it at `AU_TO_UNITS` and
`SIM_YEARS_TO_SECONDS`). -/
noncomputable def renderScene.body (auToUnits simYearsToSeconds : ℝ) (p : Planet) (t : ℝ) :
    BodyPose :=
  let a := p.a_au * auToUnits
  let e := p.e
  let b := a * Real.sqrt (1.0 - e * e)
  let yearsPerOrbit := p.period_days / 365.0
  let angVel := (2.0 * Real.pi) / (yearsPerOrbit * simYearsToSeconds)
  let angle := t * angVel
  let x := a * Real.cos angle
  let z := b * Real.sin angle
  ⟨a, e, b, yearsPerOrbit, angVel, angle, x, z⟩

/-- The orbit outline drawn for the body: `drawOrbitEllipse(a, e, 240)`. -/
noncomputable def renderScene.orbit (auToUnits simYearsToSeconds : ℝ) (p : Planet) (t : ℝ) :
    List GLCall :=
  let s := renderScene.body auToUnits simYearsToSeconds p t
  drawOrbitEllipse s.a s.e 240

/-- The placement of the body: `glTranslatef(x, 0.0f, z)`. -/
noncomputable def renderScene.place (auToUnits simYearsToSeconds : ℝ) (p : Planet) (t : ℝ) :
    GLCall :=
  let s := renderScene.body auToUnits simYearsToSeconds p t
  GLCall.glTranslatef s.x 0.0 s.z

/-! ## Projection (main.cpp 76-81) -/

/-- The function `perspectiveGL`: its single call `glFrustum(-fW, fW, -fH, fH, zNear, zFar)`. -/
noncomputable def perspectiveGL (fovY_deg aspect zNear zFar : ℝ) : List GLCall :=
  let fovY_rad := fovY_deg * Real.pi / 180.0
  let fH := Real.tan (fovY_rad / 2.0) * zNear
  let fW := fH * aspect
  [GLCall.glFrustum (-fW) fW (-fH) fH zNear zFar]

/-! ## View transform (main.cpp 84-119) -/

/-- Division where a zero divisor has no result.  `lookAt` reaches each of its divisions
through this, so a division by zero shows as `none`. -/
noncomputable def fdiv (x d : ℝ) : Option ℝ :=
  if d = 0 then none else some (x / d)

/-- The function `lookAt`.  The result is `none` if a division by zero is reached,
`some []` if the function returns at one of its three guards without an OpenGL call, and
otherwise the two calls `glMultMatrixf(mat)`, `glTranslatef(-eyeX, -eyeY, -eyeZ)`. -/
noncomputable def lookAt (eyeX eyeY eyeZ centerX centerY centerZ upX upY upZ : ℝ) :
    Option (List GLCall) :=
  let fx := centerX - eyeX
  let fy := centerY - eyeY
  let fz := centerZ - eyeZ
  let flen := Real.sqrt (fx * fx + fy * fy + fz * fz)
  if flen = 0.0 then some [] else
  (fdiv fx flen).bind fun fx =>
  (fdiv fy flen).bind fun fy =>
  (fdiv fz flen).bind fun fz =>
  let ux := upX
  let uy := upY
  let uz := upZ
  let ulen := Real.sqrt (ux * ux + uy * uy + uz * uz)
  if ulen = 0.0 then some [] else
  (fdiv ux ulen).bind fun ux =>
  (fdiv uy ulen).bind fun uy =>
  (fdiv uz ulen).bind fun uz =>
  let sx := fy * uz - fz * uy
  let sy := fz * ux - fx * uz
  let sz := fx * uy - fy * ux
  let slen := Real.sqrt (sx * sx + sy * sy + sz * sz)
  if slen = 0.0 then some [] else
  (fdiv sx slen).bind fun sx =>
  (fdiv sy slen).bind fun sy =>
  (fdiv sz slen).bind fun sz =>
  let ux2 := sy * fz - sz * fy
  let uy2 := sz * fx - sx * fz
  let uz2 := sx * fy - sy * fx
  let mat : Fin 16 → ℝ :=
    ![sx, ux2, -fx, 0.0,
      sy, uy2, -fy, 0.0,
      sz, uz2, -fz, 0.0,
      0.0, 0.0, 0.0, 1.0]
  some [GLCall.glMultMatrixf mat, GLCall.glTranslatef (-eyeX) (-eyeY) (-eyeZ)]

/-- The view set-up of `renderScene` (main.cpp 127-129): eye `(0, 60, 0.01)`, center the
origin, up `(0, 0, -1)`. -/
noncomputable def renderScene.view : Option (List GLCall) :=
  lookAt 0.0 60.0 0.01 0.0 0.0 0.0 0.0 0.0 (-1.0)

/-! ## Vector vocabulary of the specification -/

/-- Euclidean length of a 3-vector. -/
noncomputable def vlen (v : Fin 3 → ℝ) : ℝ :=
  Real.sqrt (v 0 * v 0 + v 1 * v 1 + v 2 * v 2)

/-- The vector scaled to unit length, as the specification's `normalize`. -/
noncomputable def normalize (v : Fin 3 → ℝ) : Fin 3 → ℝ :=
  ![v 0 / vlen v, v 1 / vlen v, v 2 / vlen v]

/-- The upper-left 3x3 block of the matrix a 16-element array denotes: the rotation part. -/
def rot3 (m : Fin 16 → ℝ) : Matrix (Fin 3) (Fin 3) ℝ :=
  Matrix.of fun i j => colMajor m (Fin.castSucc i) (Fin.castSucc j)

/-- The 16-element column-major array of the homogeneous matrix whose rotation block has
rows `r0`, `r1`, `r2`: the layout of the local `mat` of `lookAt`. -/
def rowsArray (r0 r1 r2 : Fin 3 → ℝ) : Fin 16 → ℝ :=
  ![r0 0, r1 0, r2 0, 0,
    r0 1, r1 1, r2 1, 0,
    r0 2, r1 2, r2 2, 0,
    0, 0, 0, 1]

/-! ## The same computations in binary32 (`float`) arithmetic

The program's variables are C++ `float`s.  A finite `float` is `m * 2 ^ e` with
`|m| < 2 ^ 24` and `e ≥ -149`; each operation returns the exact result rounded to the
nearest such value, ties to the even mantissa.  Infinities and NaN have no value here
(`none`), and the sign of zero is not kept. -/

/-- A finite binary32 value `m * 2 ^ e`. -/
structure F32 where
  m : ℤ
  e : ℤ
deriving DecidableEq

/-- The pair is a finite binary32 value: 24-bit mantissa, exponent in range. -/
def F32.valid (x : F32) : Prop :=
  x.m.natAbs < 2 ^ 24 ∧ -149 ≤ x.e ∧ x.e ≤ 104

instance (x : F32) : Decidable (F32.valid x) := by
  unfold F32.valid
  infer_instance

/-- The rational number a binary32 value stands for. -/
def F32.toRat (x : F32) : ℚ := (x.m : ℚ) * (2 : ℚ) ^ x.e

/-- The number of binary digits of `n`, for `n < 2 ^ fuel`. -/
def bitLen : ℕ → ℕ → ℕ
  | 0, _ => 0
  | fuel + 1, n => if n = 0 then 0 else bitLen fuel (n / 2) + 1

/-- Bit-by-bit integer square root: with `r` a multiple of `2 ^ i` and `r * r ≤ n`, the
largest `r + d`, `d < 2 ^ i`, whose square is at most `n`. -/
def isqrtAux (n : ℕ) : ℕ → ℕ → ℕ
  | 0, r => r
  | i + 1, r =>
    if (r + 2 ^ i) * (r + 2 ^ i) ≤ n then isqrtAux n i (r + 2 ^ i) else isqrtAux n i r

/-- The integer square root (floor) of `n`, for `n < 2 ^ 512`. -/
def isqrt (n : ℕ) : ℕ := isqrtAux n 256 0

/-- Round to binary32 the exact magnitude `(M + d) * 2 ^ E`, where `d` is `0` when
`sticky` is false and some value strictly between `0` and `1` when it is true (callers
with `sticky` pass at least 26 bits in `M`; `M < 2 ^ 512`, which holds for every exact
intermediate of an operation on binary32 values).  The result is `none` on overflow. -/
def F32.round (neg : Bool) (M : ℕ) (E : ℤ) (sticky : Bool) : Option F32 :=
  if M = 0 then some ⟨0, 0⟩ else
  let bits : ℤ := (bitLen 512 M : ℤ)
  let e1 : ℤ := max (E + bits - 24) (-149)
  let k : ℤ := e1 - E
  let m1 : ℕ :=
    if k ≤ 0 then M * 2 ^ (-k).toNat
    else
      let q := M / 2 ^ k.toNat
      let r := M % 2 ^ k.toNat
      let half := 2 ^ (k.toNat - 1)
      if half < r ∨ (r = half ∧ (sticky = true ∨ q % 2 = 1)) then q + 1 else q
  let m2 : ℕ := if m1 = 2 ^ 24 then 2 ^ 23 else m1
  let e2 : ℤ := if m1 = 2 ^ 24 then e1 + 1 else e1
  if 104 < e2 then none
  else some ⟨if neg = true then -(m2 : ℤ) else (m2 : ℤ), e2⟩

/-- The binary32 product `a * b`. -/
def F32.mul (a b : F32) : Option F32 :=
  F32.round (xor (decide (a.m < 0)) (decide (b.m < 0))) (a.m.natAbs * b.m.natAbs)
    (a.e + b.e) false

/-- The binary32 difference `a - b`. -/
def F32.sub (a b : F32) : Option F32 :=
  let e0 : ℤ := min a.e b.e
  let M : ℤ := a.m * 2 ^ (a.e - e0).toNat - b.m * 2 ^ (b.e - e0).toNat
  F32.round (decide (M < 0)) M.natAbs e0 false

/-- The binary32 quotient `a / b`; a zero divisor gives an infinity or NaN, so `none`. -/
def F32.div (a b : F32) : Option F32 :=
  if b.m = 0 then none
  else if a.m = 0 then some ⟨0, 0⟩
  else
    let s : ℕ := bitLen 512 b.m.natAbs + 26
    let N : ℕ := a.m.natAbs * 2 ^ s
    F32.round (xor (decide (a.m < 0)) (decide (b.m < 0))) (N / b.m.natAbs)
      (a.e - b.e - (s : ℤ)) (decide (N % b.m.natAbs ≠ 0))

/-- The binary32 square root `sqrtf(a)`; a negative argument gives NaN, so `none`. -/
def F32.sqrt (a : F32) : Option F32 :=
  if a.m < 0 then none
  else if a.m = 0 then some ⟨0, 0⟩
  else
    let s : ℕ := if a.e % 2 = 0 then 52 else 53
    let N : ℕ := a.m.natAbs * 2 ^ s
    let Q : ℕ := isqrt N
    F32.round false Q ((a.e - (s : ℤ)) / 2) (decide (Q * Q ≠ N))

/-- The value of `(float)M_PI`: the binary32 nearest to pi, `13176795 * 2 ^ (-22)`. -/
def M_PI_F32 : F32 := ⟨13176795, -22⟩

/-- The local `b` of `drawOrbitEllipse` as the program computes it:
`a * sqrtf(1.0f - e * e)` in binary32. -/
def drawOrbitEllipse.bF32 (a e : F32) : Option F32 := do
  let ee ← F32.mul e e
  let radicand ← F32.sub ⟨1, 0⟩ ee
  let root ← F32.sqrt radicand
  F32.mul a root

/-- The local `b` of the planet loop of `renderScene` as the program computes it:
`a = p.a_au * AU_TO_UNITS`, `b = a * sqrtf(1.0f - e * e)` in binary32. -/
def renderScene.bF32 (auToUnits a_au e : F32) : Option F32 := do
  let a ← F32.mul a_au auToUnits
  let ee ← F32.mul e e
  let radicand ← F32.sub ⟨1, 0⟩ ee
  let root ← F32.sqrt radicand
  F32.mul a root

/-- The phase angle of the planet loop of `renderScene` as the program computes it:
`yearsPerOrbit = period_days / 365.0f`,
`angVel = (2.0f * (float)M_PI) / (yearsPerOrbit * SIM_YEARS_TO_SECONDS)`,
`angle = t * angVel`, every operation in binary32. -/
def renderScene.angleF32 (simYearsToSeconds period_days t : F32) : Option F32 := do
  let yearsPerOrbit ← F32.div period_days ⟨365, 0⟩
  let twoPi ← F32.mul ⟨2, 0⟩ M_PI_F32
  let divisor ← F32.mul yearsPerOrbit simYearsToSeconds
  let angVel ← F32.div twoPi divisor
  F32.mul t angVel

/-! ## Motion model: theorems -/

/-- For an eccentricity in `[0, 1)` the radicand `1 - e * e` is positive and at most one. -/
lemma radicand_bounds {e : ℝ} (he0 : 0 ≤ e) (he1 : e < 1) :
    0 < 1 - e * e ∧ 1 - e * e ≤ 1 := by
  constructor <;> nlinarith

/-- The square root of the radicand lies in `(0, 1]` and is one only for a circle. -/
lemma sqrt_radicand {e : ℝ} (he0 : 0 ≤ e) (he1 : e < 1) :
    0 < Real.sqrt (1 - e * e) ∧ Real.sqrt (1 - e * e) ≤ 1 ∧
      (Real.sqrt (1 - e * e) = 1 ↔ e = 0) := by
  obtain ⟨hpos, hle⟩ := radicand_bounds he0 he1
  refine ⟨Real.sqrt_pos.mpr hpos, ?_, ?_⟩
  · calc Real.sqrt (1 - e * e) ≤ Real.sqrt 1 := Real.sqrt_le_sqrt hle
      _ = 1 := Real.sqrt_one
  · constructor
    · intro h
      have h2 : Real.sqrt (1 - e * e) * Real.sqrt (1 - e * e) = 1 - e * e :=
        Real.mul_self_sqrt hpos.le
      rw [h] at h2
      have h3 : e * e = 0 := by linarith
      exact mul_self_eq_zero.mp h3
    · intro h
      subst h
      simp

/-- C1: for every time `t` and every body with scaled semi-major axis
`a = a_au * AU_TO_UNITS` non-zero, eccentricity in `[0, 1)` and non-zero period, the point
`(x, 0, z)` at which `renderScene` places the body (`x = a * cos angle`,
`z = b * sin angle`, `b = a * sqrt (1 - e^2)`, `angle = t * angVel`) satisfies
`(x / a)^2 + (z / b)^2 = 1`.  The period enters only through the angle, and the identity
holds at every angle. -/
theorem position_on_ellipse (auToUnits simYearsToSeconds : ℝ) (p : Planet) (t : ℝ)
    (ha : p.a_au * auToUnits ≠ 0) (he0 : 0 ≤ p.e) (he1 : p.e < 1)
    (_hper : p.period_days ≠ 0) :
    ∃ a b angle x z : ℝ,
      renderScene.place auToUnits simYearsToSeconds p t = GLCall.glTranslatef x 0 z ∧
      a = p.a_au * auToUnits ∧ b = a * Real.sqrt (1 - p.e ^ 2) ∧
      angle = t * (renderScene.body auToUnits simYearsToSeconds p t).angVel ∧
      x = a * Real.cos angle ∧ z = b * Real.sin angle ∧
      (x / a) ^ 2 + (z / b) ^ 2 = 1 := by
  have hs : Real.sqrt (1 - p.e * p.e) ≠ 0 := (sqrt_radicand he0 he1).1.ne'
  refine ⟨_, _, _, _, _, ?_, rfl, rfl, rfl, rfl, rfl, ?_⟩
  · simp [renderScene.place, renderScene.body]
    constructor <;> norm_num [pow_two]
  · have hs2 : Real.sqrt (1 - p.e ^ 2) ≠ 0 := by rwa [pow_two]
    rw [mul_div_cancel_left₀ _ ha, mul_div_cancel_left₀ _ (mul_ne_zero ha hs2)]
    exact Real.cos_sq_add_sin_sq _

/-- C1, at Earth's catalog entry, the program's constants and `t = 7`. -/
theorem position_on_ellipse_witness :
    ∃ a b angle x z : ℝ,
      renderScene.place 2 20 ⟨"Earth", 1, 0.0167, 365.25, 0.17, ![0.2, 0.5, 1]⟩ 7 =
        GLCall.glTranslatef x 0 z ∧
      a = (1 : ℝ) * 2 ∧ b = a * Real.sqrt (1 - (0.0167 : ℝ) ^ 2) ∧
      angle = 7 * (renderScene.body 2 20
        ⟨"Earth", 1, 0.0167, 365.25, 0.17, ![0.2, 0.5, 1]⟩ 7).angVel ∧
      x = a * Real.cos angle ∧ z = b * Real.sin angle ∧
      (x / a) ^ 2 + (z / b) ^ 2 = 1 :=
  position_on_ellipse 2 20 ⟨"Earth", 1, 0.0167, 365.25, 0.17, ![0.2, 0.5, 1]⟩ 7
    (by norm_num) (by norm_num) (by norm_num) (by norm_num)

/-- C2 (amended): with arithmetic read over the reals, a body whose period is 365 days,
one year in the conversion `renderScene` uses, has `yearsPerOrbit = 1`, and for every
positive time scale its phase angle advances by exactly `2 * pi` over
`SIM_YEARS_TO_SECONDS` seconds, from every `t`; in particular the angle at
`t = SIM_YEARS_TO_SECONDS` is `2 * pi`. -/
theorem one_year_one_revolution (auToUnits simYearsToSeconds : ℝ) (p : Planet) (t : ℝ)
    (hp : p.period_days = 365) (hs : 0 < simYearsToSeconds) :
    (renderScene.body auToUnits simYearsToSeconds p t).yearsPerOrbit = 1 ∧
    (renderScene.body auToUnits simYearsToSeconds p (t + simYearsToSeconds)).angle -
      (renderScene.body auToUnits simYearsToSeconds p t).angle = 2 * Real.pi ∧
    (renderScene.body auToUnits simYearsToSeconds p simYearsToSeconds).angle
      = 2 * Real.pi := by
  have h1 : p.period_days / (365.0 : ℝ) = 1 := by rw [hp]; norm_num
  refine ⟨h1, ?_, ?_⟩
  · simp only [renderScene.body, h1]
    field_simp
    ring
  · simp only [renderScene.body, h1]
    field_simp
    norm_num

/-- C2, at a 365-day body, the program's time scale 20 and `t = 3`. -/
theorem one_year_one_revolution_witness :
    (renderScene.body 2 20 ⟨"Year", 1, 0, 365, 0.17, ![0, 0, 1]⟩ 3).yearsPerOrbit = 1 ∧
    (renderScene.body 2 20 ⟨"Year", 1, 0, 365, 0.17, ![0, 0, 1]⟩ (3 + 20)).angle -
      (renderScene.body 2 20 ⟨"Year", 1, 0, 365, 0.17, ![0, 0, 1]⟩ 3).angle = 2 * Real.pi ∧
    (renderScene.body 2 20 ⟨"Year", 1, 0, 365, 0.17, ![0, 0, 1]⟩ 20).angle = 2 * Real.pi :=
  one_year_one_revolution 2 20 ⟨"Year", 1, 0, 365, 0.17, ![0, 0, 1]⟩ 3 rfl (by norm_num)

/-- C2 (counterexample): in the binary32 arithmetic of the program, for a 365-day body at
time scale 20, the angle is `6283192` at `t = 20000020` and `6283185.5` at
`t = 20000000`.  Over these 20 seconds the angle advances by `6.5`, which is neither the
real `2 * pi` nor the binary32 value of `2.0f * (float)M_PI`. -/
theorem one_year_angle_float32 :
    (F32.valid ⟨5, 2⟩ ∧ F32.valid ⟨365, 0⟩ ∧ F32.valid ⟨10000010, 1⟩ ∧
      F32.valid ⟨10000000, 1⟩) ∧
    F32.toRat ⟨10000010, 1⟩ = F32.toRat ⟨10000000, 1⟩ + F32.toRat ⟨5, 2⟩ ∧
    renderScene.angleF32 ⟨5, 2⟩ ⟨365, 0⟩ ⟨10000010, 1⟩ = some ⟨12566384, -1⟩ ∧
    renderScene.angleF32 ⟨5, 2⟩ ⟨365, 0⟩ ⟨10000000, 1⟩ = some ⟨12566371, -1⟩ ∧
    F32.sub ⟨12566384, -1⟩ ⟨12566371, -1⟩ = some ⟨13631488, -21⟩ ∧
    F32.toRat ⟨12566384, -1⟩ - F32.toRat ⟨12566371, -1⟩ = 13 / 2 ∧
    F32.mul ⟨2, 0⟩ M_PI_F32 = some ⟨13176795, -21⟩ ∧
    F32.toRat ⟨13631488, -21⟩ ≠ F32.toRat ⟨13176795, -21⟩ ∧
    ((F32.toRat ⟨12566384, -1⟩ - F32.toRat ⟨12566371, -1⟩ : ℚ) : ℝ) ≠ 2 * Real.pi := by
  have hd : F32.toRat ⟨12566384, -1⟩ - F32.toRat ⟨12566371, -1⟩ = 13 / 2 := by
    norm_num [F32.toRat]
  refine ⟨by decide, by norm_num [F32.toRat], by decide!, by decide!, by decide!, hd,
    by decide!, by norm_num [F32.toRat], ?_⟩
  rw [hd]
  intro h
  have hpi := Real.pi_lt_d2
  norm_num at h
  linarith

/-- C4: for two bodies with non-zero periods and a non-zero time scale, the angular
velocities `renderScene` computes are in the inverse ratio of the periods; the ratio is
the same for every other non-zero time scale, every distance scale and every pair of
bodies with those two periods, whatever their semi-major axes and eccentricities. -/
theorem angVel_ratio (auToUnits simYearsToSeconds : ℝ) (p1 p2 : Planet) (t : ℝ)
    (h1 : p1.period_days ≠ 0) (h2 : p2.period_days ≠ 0) (hs : simYearsToSeconds ≠ 0) :
    (renderScene.body auToUnits simYearsToSeconds p1 t).angVel /
      (renderScene.body auToUnits simYearsToSeconds p2 t).angVel
        = p2.period_days / p1.period_days ∧
    ∀ (auToUnits' simYearsToSeconds' : ℝ) (q1 q2 : Planet) (t' : ℝ),
      simYearsToSeconds' ≠ 0 → q1.period_days = p1.period_days →
      q2.period_days = p2.period_days →
      (renderScene.body auToUnits' simYearsToSeconds' q1 t').angVel /
        (renderScene.body auToUnits' simYearsToSeconds' q2 t').angVel
        = (renderScene.body auToUnits simYearsToSeconds p1 t).angVel /
          (renderScene.body auToUnits simYearsToSeconds p2 t).angVel := by
  have key : ∀ (x y s : ℝ), x ≠ 0 → y ≠ 0 → s ≠ 0 →
      ((2.0 : ℝ) * Real.pi) / (x / 365.0 * s) / (((2.0 : ℝ) * Real.pi) / (y / 365.0 * s))
        = y / x := by
    intro x y s hx hy hs
    have hpi : Real.pi ≠ 0 := Real.pi_ne_zero
    norm_num
    field_simp
    ring
  refine ⟨key _ _ _ h1 h2 hs, ?_⟩
  intro au' sim' q1 q2 t' hs' e1 e2
  have ha : (renderScene.body au' sim' q1 t').angVel /
      (renderScene.body au' sim' q2 t').angVel = q2.period_days / q1.period_days :=
    key _ _ _ (e1 ▸ h1) (e2 ▸ h2) hs'
  have hb : (renderScene.body auToUnits simYearsToSeconds p1 t).angVel /
      (renderScene.body auToUnits simYearsToSeconds p2 t).angVel
        = p2.period_days / p1.period_days := key _ _ _ h1 h2 hs
  rw [ha, hb, e1, e2]

/-- C4, at periods 88 and 687 days (Mercury and Mars) and the program's constants. -/
theorem angVel_ratio_witness :
    (renderScene.body 2 20 ⟨"Mercury", 0.387, 0.2056, 88, 0.12, ![0.7, 0.7, 0.7]⟩ 1).angVel /
      (renderScene.body 2 20 ⟨"Mars", 1.524, 0.0934, 687, 0.14, ![1, 0.4, 0.2]⟩ 1).angVel
        = (687 : ℝ) / 88 :=
  (angVel_ratio 2 20 ⟨"Mercury", 0.387, 0.2056, 88, 0.12, ![0.7, 0.7, 0.7]⟩
    ⟨"Mars", 1.524, 0.0934, 687, 0.14, ![1, 0.4, 0.2]⟩ 1
    (by norm_num) (by norm_num) (by norm_num)).1

/-- C8 (amended): with arithmetic read over the reals, for an eccentricity in `[0, 1)`
and a positive scaled semi-major axis `a`, the radicand `1 - e * e` is positive, and the
semi-minor axis `b = a * sqrt (1 - e * e)`, by the formula of `drawOrbitEllipse` and by
the formula of the planet loop of `renderScene`, is positive, at most `a`, and equal to
`a` exactly when `e = 0`. -/
theorem semi_minor_axis_bounds (a e : ℝ) (he0 : 0 ≤ e) (he1 : e < 1) (ha : 0 < a) :
    0 < 1 - e * e ∧
    (0 < drawOrbitEllipse.b a e ∧ drawOrbitEllipse.b a e ≤ a ∧
      (drawOrbitEllipse.b a e = a ↔ e = 0)) ∧
    ∀ (auToUnits simYearsToSeconds : ℝ) (p : Planet) (t : ℝ),
      p.a_au * auToUnits = a → p.e = e →
      (renderScene.body auToUnits simYearsToSeconds p t).a = a ∧
      0 < (renderScene.body auToUnits simYearsToSeconds p t).b ∧
      (renderScene.body auToUnits simYearsToSeconds p t).b ≤ a ∧
      ((renderScene.body auToUnits simYearsToSeconds p t).b = a ↔ e = 0) := by
  obtain ⟨hpos, hle, hone⟩ := sqrt_radicand he0 he1
  have hb : 0 < a * Real.sqrt (1 - e * e) ∧ a * Real.sqrt (1 - e * e) ≤ a ∧
      (a * Real.sqrt (1 - e * e) = a ↔ e = 0) := by
    refine ⟨mul_pos ha hpos, ?_, ?_⟩
    · calc a * Real.sqrt (1 - e * e) ≤ a * 1 := mul_le_mul_of_nonneg_left hle ha.le
        _ = a := mul_one a
    · rw [← hone]
      constructor
      · intro h
        have h2 : a * Real.sqrt (1 - e * e) = a * 1 := by rw [h, mul_one]
        exact mul_left_cancel₀ ha.ne' h2
      · intro h
        rw [h, mul_one]
  have hlit : (1.0 : ℝ) = 1 := by norm_num
  refine ⟨(radicand_bounds he0 he1).1, ?_, ?_⟩
  · simpa only [drawOrbitEllipse.b, hlit] using hb
  · intro au sim p t hpa hpe
    simp only [renderScene.body, hlit, hpa, hpe]
    exact ⟨trivial, hb⟩

/-- C8, at Mercury's shape `e = 0.2056` and `a = 0.774`. -/
theorem semi_minor_axis_bounds_witness :
    0 < drawOrbitEllipse.b 0.774 0.2056 ∧ drawOrbitEllipse.b 0.774 0.2056 ≤ 0.774 ∧
      (drawOrbitEllipse.b 0.774 0.2056 = 0.774 ↔ (0.2056 : ℝ) = 0) :=
  (semi_minor_axis_bounds 0.774 0.2056 (by norm_num) (by norm_num) (by norm_num)).2.1

/-- C8 (counterexample): in the binary32 arithmetic of the program, at `a = 2` and the
eccentricity `1e-4f`, which is positive and below one, `e * e` is so small that
`1.0f - e * e` rounds to `1.0f`; `drawOrbitEllipse` and the planet loop of `renderScene`
(at `a_au = 1`, `AU_TO_UNITS = 2`) both compute `b = 2 = a` although `e` is not zero. -/
theorem semi_minor_equals_major_float32 :
    (F32.valid ⟨1, 1⟩ ∧ F32.valid ⟨1, 0⟩ ∧ F32.valid ⟨13743895, -37⟩) ∧
    (0 < F32.toRat ⟨13743895, -37⟩ ∧ F32.toRat ⟨13743895, -37⟩ < 1 ∧
      F32.toRat ⟨13743895, -37⟩ ≠ 0 ∧ 0 < F32.toRat ⟨1, 1⟩) ∧
    F32.mul ⟨13743895, -37⟩ ⟨13743895, -37⟩ = some ⟨11258998, -50⟩ ∧
    F32.sub ⟨1, 0⟩ ⟨11258998, -50⟩ = some ⟨8388608, -23⟩ ∧
    drawOrbitEllipse.bF32 ⟨1, 1⟩ ⟨13743895, -37⟩ = some ⟨8388608, -22⟩ ∧
    renderScene.bF32 ⟨1, 1⟩ ⟨1, 0⟩ ⟨13743895, -37⟩ = some ⟨8388608, -22⟩ ∧
    F32.toRat ⟨8388608, -22⟩ = F32.toRat ⟨1, 1⟩ := by
  refine ⟨by decide, ?_, by decide!, by decide!, by decide!, by decide!,
    by norm_num [F32.toRat]⟩
  refine ⟨?_, ?_, ?_, ?_⟩ <;> norm_num [F32.toRat]

/-- C9: every catalog entry has eccentricity in `[0, 1)`, positive semi-major axis,
positive period and colour components in `[0, 1]`; so, at the program's constants, the
divisor `yearsPerOrbit * SIM_YEARS_TO_SECONDS` of `renderScene` is non-zero, the radicand
`1 - e * e` is positive and the semi-minor axis `b` is positive, at every time. -/
theorem catalog_preconditions (p : Planet) (hp : p ∈ planets) :
    (0 ≤ p.e ∧ p.e < 1) ∧ 0 < p.a_au ∧ 0 < p.period_days ∧
    (∀ i : Fin 3, 0 ≤ p.color i ∧ p.color i ≤ 1) ∧
    ∀ t : ℝ,
      (renderScene.body AU_TO_UNITS SIM_YEARS_TO_SECONDS p t).yearsPerOrbit
        * SIM_YEARS_TO_SECONDS ≠ 0 ∧
      0 < 1 - p.e * p.e ∧
      0 < (renderScene.body AU_TO_UNITS SIM_YEARS_TO_SECONDS p t).b := by
  have core : (0 ≤ p.e ∧ p.e < 1) ∧ 0 < p.a_au ∧ 0 < p.period_days ∧
      (∀ i : Fin 3, 0 ≤ p.color i ∧ p.color i ≤ 1) := by
    simp only [planets, List.mem_cons, List.mem_singleton, List.not_mem_nil, or_false] at hp
    rcases hp with h | h | h | h | h | h | h | h <;> subst h <;>
      refine ⟨⟨by norm_num, by norm_num⟩, by norm_num, by norm_num, ?_⟩ <;>
      intro i <;> fin_cases i <;> norm_num
  obtain ⟨⟨he0, he1⟩, ha, hper, hcol⟩ := core
  refine ⟨⟨he0, he1⟩, ha, hper, hcol, ?_⟩
  intro t
  have hau : (0 : ℝ) < AU_TO_UNITS := by norm_num [AU_TO_UNITS]
  have hsim : (0 : ℝ) < SIM_YEARS_TO_SECONDS := by norm_num [SIM_YEARS_TO_SECONDS]
  have hy : 0 < p.period_days / (365.0 : ℝ) := div_pos hper (by norm_num)
  have hlit : (1.0 : ℝ) = 1 := by norm_num
  refine ⟨(mul_pos hy hsim).ne', (radicand_bounds he0 he1).1, ?_⟩
  simp only [renderScene.body, hlit]
  exact mul_pos (mul_pos ha hau) (sqrt_radicand he0 he1).1

/-- C9, at the catalog's Jupiter entry. -/
theorem catalog_preconditions_witness :
    (⟨"Jupiter", 5.203, 0.0484, 4331.0, 0.40, ![1.0, 0.8, 0.6]⟩ : Planet) ∈ planets ∧
    (0 ≤ (0.0484 : ℝ) ∧ (0.0484 : ℝ) < 1) ∧ 0 < (5.203 : ℝ) ∧ 0 < (4331.0 : ℝ) :=
  ⟨by simp [planets],
   (catalog_preconditions ⟨"Jupiter", 5.203, 0.0484, 4331.0, 0.40, ![1.0, 0.8, 0.6]⟩
      (by simp [planets])).1,
   (catalog_preconditions ⟨"Jupiter", 5.203, 0.0484, 4331.0, 0.40, ![1.0, 0.8, 0.6]⟩
      (by simp [planets])).2.1,
   (catalog_preconditions ⟨"Jupiter", 5.203, 0.0484, 4331.0, 0.40, ![1.0, 0.8, 0.6]⟩
      (by simp [planets])).2.2.1⟩

/-- C3 (the code at the claimed input): the catalog entry at index 2 is "Earth" with a
period of 365.25 days; at the program's constants its phase angle at `t = 20` is
`2 * pi * (365 / 365.25)`, which is less than `2 * pi`: after 20 simulation seconds Earth
has not completed its revolution. -/
theorem earth_angle_at_20 :
    ∃ p : Planet, planets[2]? = some p ∧ p.name = "Earth" ∧ p.period_days = 365.25 ∧
      (renderScene.body AU_TO_UNITS SIM_YEARS_TO_SECONDS p 20).angle
        = 2 * Real.pi * (365 / 365.25) ∧
      (renderScene.body AU_TO_UNITS SIM_YEARS_TO_SECONDS p 20).angle < 2 * Real.pi ∧
      (renderScene.body AU_TO_UNITS SIM_YEARS_TO_SECONDS p 20).angle ≠ 2 * Real.pi := by
  have hval : (renderScene.body AU_TO_UNITS SIM_YEARS_TO_SECONDS
      ⟨"Earth", 1.000, 0.0167, 365.25, 0.17, ![0.2, 0.5, 1.0]⟩ 20).angle
        = 2 * Real.pi * (365 / 365.25) := by
    simp only [renderScene.body, SIM_YEARS_TO_SECONDS]
    norm_num
    ring
  have hlt : 2 * Real.pi * (365 / 365.25) < 2 * Real.pi := by
    have hpi : 0 < Real.pi := Real.pi_pos
    have : (365 / 365.25 : ℝ) < 1 := by norm_num
    nlinarith
  refine ⟨⟨"Earth", 1.000, 0.0167, 365.25, 0.17, ![0.2, 0.5, 1.0]⟩, ?_, rfl, rfl, hval, ?_, ?_⟩
  · simp [planets]
  · rw [hval]; exact hlt
  · rw [hval]; exact hlt.ne

/-! ## View transform: theorems -/

open Matrix

/-- A sum of three squares vanishes only when each term does. -/
lemma sumsq_eq_zero_iff (x y z : ℝ) :
    x * x + y * y + z * z = 0 ↔ x = 0 ∧ y = 0 ∧ z = 0 := by
  constructor
  · intro h
    have hx := mul_self_nonneg x
    have hy := mul_self_nonneg y
    have hz := mul_self_nonneg z
    refine ⟨?_, ?_, ?_⟩ <;> apply mul_self_eq_zero.mp <;> linarith
  · rintro ⟨rfl, rfl, rfl⟩
    ring

lemma sumsq_nonneg (x y z : ℝ) : 0 ≤ x * x + y * y + z * z := by
  have hx := mul_self_nonneg x
  have hy := mul_self_nonneg y
  have hz := mul_self_nonneg z
  linarith

lemma vec3_eq_zero_iff (v : Fin 3 → ℝ) : v = 0 ↔ v 0 = 0 ∧ v 1 = 0 ∧ v 2 = 0 := by
  constructor
  · intro h
    simp [h]
  · rintro ⟨h0, h1, h2⟩
    funext i
    fin_cases i <;> simpa

lemma vlen_nonneg (v : Fin 3 → ℝ) : 0 ≤ vlen v := Real.sqrt_nonneg _

lemma vlen_eq_zero_iff (v : Fin 3 → ℝ) : vlen v = 0 ↔ v = 0 := by
  rw [vlen, Real.sqrt_eq_zero (sumsq_nonneg _ _ _), sumsq_eq_zero_iff, vec3_eq_zero_iff]

lemma vlen_mul_self (v : Fin 3 → ℝ) :
    vlen v * vlen v = v 0 * v 0 + v 1 * v 1 + v 2 * v 2 :=
  Real.mul_self_sqrt (sumsq_nonneg _ _ _)

lemma vlen_smul (c : ℝ) (hc : 0 ≤ c) (v : Fin 3 → ℝ) : vlen (c • v) = c * vlen v := by
  have h : (c • v) 0 * (c • v) 0 + (c • v) 1 * (c • v) 1 + (c • v) 2 * (c • v) 2
      = c * c * (v 0 * v 0 + v 1 * v 1 + v 2 * v 2) := by
    simp only [Pi.smul_apply, smul_eq_mul]
    ring
  rw [vlen, h, Real.sqrt_mul (mul_self_nonneg c), Real.sqrt_mul_self hc, vlen]

lemma normalize_eq_smul (v : Fin 3 → ℝ) : normalize v = (vlen v)⁻¹ • v := by
  funext i
  fin_cases i <;> simp [normalize, div_eq_inv_mul]

lemma normalize_smul (c : ℝ) (hc : 0 < c) (v : Fin 3 → ℝ) :
    normalize (c • v) = normalize v := by
  have hinv : (c * vlen v)⁻¹ * c = (vlen v)⁻¹ := by
    rw [mul_inv, mul_comm c⁻¹, mul_assoc, inv_mul_cancel₀ hc.ne', mul_one]
  rw [normalize_eq_smul, normalize_eq_smul, vlen_smul c hc.le, smul_smul, hinv]

lemma normalize_dot_self (v : Fin 3 → ℝ) (h : v ≠ 0) : normalize v ⬝ᵥ normalize v = 1 := by
  have hl : vlen v ≠ 0 := fun h0 => h ((vlen_eq_zero_iff v).mp h0)
  have hsq := vlen_mul_self v
  rw [vec3_dotProduct]
  simp only [normalize, Matrix.cons_val_zero, Matrix.cons_val_one, Matrix.head_cons,
    Matrix.cons_val_two, Matrix.tail_cons]
  field_simp
  linarith

lemma fdiv_of_ne (x : ℝ) {d : ℝ} (h : d ≠ 0) : fdiv x d = some (x / d) := by
  simp [fdiv, h]

/-- The control flow of `lookAt` in the vector vocabulary: three guards on the lengths of
`center - eye`, `up` and `f × u`, then the two calls.  No path yields `none`. -/
lemma lookAt_unfold (eye center up : Fin 3 → ℝ) :
    lookAt (eye 0) (eye 1) (eye 2) (center 0) (center 1) (center 2) (up 0) (up 1) (up 2) =
      if vlen (center - eye) = 0 then some [] else
      if vlen up = 0 then some [] else
      if vlen (normalize (center - eye) ×₃ normalize up) = 0 then some [] else
      some [GLCall.glMultMatrixf (rowsArray
              (normalize (normalize (center - eye) ×₃ normalize up))
              (normalize (normalize (center - eye) ×₃ normalize up) ×₃
                normalize (center - eye))
              (-normalize (center - eye))),
            GLCall.glTranslatef (-eye 0) (-eye 1) (-eye 2)] := by
  have hlit0 : (0.0 : ℝ) = 0 := by norm_num
  have hlit1 : (1.0 : ℝ) = 1 := by norm_num
  by_cases h1 : vlen (center - eye) = 0
  · rw [if_pos h1]
    simp only [vlen, Pi.sub_apply] at h1
    simp only [lookAt, hlit0, h1, if_true]
  rw [if_neg h1]
  by_cases h2 : vlen up = 0
  · rw [if_pos h2]
    simp only [vlen, Pi.sub_apply] at h1 h2
    simp only [lookAt, hlit0, h1, h2, if_true, if_false, fdiv_of_ne _ h1, Option.some_bind]
  rw [if_neg h2]
  by_cases h3 : vlen (normalize (center - eye) ×₃ normalize up) = 0
  · rw [if_pos h3]
    simp only [vlen, normalize, cross_apply, Pi.sub_apply, Matrix.cons_val_zero,
      Matrix.cons_val_one, Matrix.head_cons, Matrix.cons_val_two, Matrix.tail_cons] at h1 h2 h3
    simp only [lookAt, hlit0, h1, h2, h3, if_true, if_false, fdiv_of_ne _ h1, fdiv_of_ne _ h2,
      Option.some_bind]
  rw [if_neg h3]
  simp only [vlen, normalize, cross_apply, Pi.sub_apply, Pi.neg_apply, Matrix.cons_val_zero,
    Matrix.cons_val_one, Matrix.head_cons, Matrix.cons_val_two, Matrix.tail_cons,
    rowsArray] at h1 h2 h3 ⊢
  simp only [lookAt, hlit0, hlit1, h1, h2, h3, if_false, fdiv_of_ne _ h1, fdiv_of_ne _ h2,
    fdiv_of_ne _ h3, Option.some_bind]

lemma vlen_sub_eq_zero_iff (eye center : Fin 3 → ℝ) :
    vlen (center - eye) = 0 ↔ eye = center := by
  rw [vlen_eq_zero_iff, sub_eq_zero]
  exact eq_comm

lemma inv_vlen_pos {v : Fin 3 → ℝ} (h : v ≠ 0) : 0 < (vlen v)⁻¹ :=
  inv_pos.mpr (lt_of_le_of_ne (vlen_nonneg v) fun h0 => h ((vlen_eq_zero_iff v).mp h0.symm))

/-- The cross product of the two normalised vectors is a positive multiple of the cross
product of the vectors themselves. -/
lemma cross_normalize (d up : Fin 3 → ℝ) :
    normalize d ×₃ normalize up = ((vlen d)⁻¹ * (vlen up)⁻¹) • (d ×₃ up) := by
  rw [normalize_eq_smul, normalize_eq_smul, LinearMap.map_smul₂, LinearMap.map_smul,
    smul_smul]

lemma cross_normalize_eq_zero_iff {d up : Fin 3 → ℝ} (hd : d ≠ 0) (hu : up ≠ 0) :
    vlen (normalize d ×₃ normalize up) = 0 ↔ d ×₃ up = 0 := by
  rw [vlen_eq_zero_iff, cross_normalize, smul_eq_zero]
  constructor
  · rintro (h | h)
    · exact absurd h (mul_pos (inv_vlen_pos hd) (inv_vlen_pos hu)).ne'
    · exact h
  · exact Or.inr

/-- The right vector of the code, built from the normalised up vector, is the
`normalize (f × up)` of the specification. -/
lemma side_eq {d up : Fin 3 → ℝ} (hu : up ≠ 0) :
    normalize (normalize d ×₃ normalize up) = normalize (normalize d ×₃ up) := by
  have h : normalize d ×₃ normalize up = (vlen up)⁻¹ • (normalize d ×₃ up) := by
    rw [normalize_eq_smul up, LinearMap.map_smul]
  rw [h, normalize_smul _ (inv_vlen_pos hu)]

/-- Orthonormality of the frame `s = normalize (f × w)`, `s × f`, `f` for a unit `f`. -/
lemma frame_orthonormal (f w : Fin 3 → ℝ) (hf : f ⬝ᵥ f = 1) (hw : f ×₃ w ≠ 0) :
    normalize (f ×₃ w) ⬝ᵥ normalize (f ×₃ w) = 1 ∧
    (normalize (f ×₃ w) ×₃ f) ⬝ᵥ (normalize (f ×₃ w) ×₃ f) = 1 ∧
    normalize (f ×₃ w) ⬝ᵥ (normalize (f ×₃ w) ×₃ f) = 0 ∧
    normalize (f ×₃ w) ⬝ᵥ f = 0 ∧
    (normalize (f ×₃ w) ×₃ f) ⬝ᵥ f = 0 := by
  have hs : normalize (f ×₃ w) ⬝ᵥ normalize (f ×₃ w) = 1 := normalize_dot_self _ hw
  have hsf : normalize (f ×₃ w) ⬝ᵥ f = 0 := by
    rw [normalize_eq_smul, Matrix.smul_dotProduct, Matrix.dotProduct_comm, dot_self_cross,
      smul_zero]
  refine ⟨hs, ?_, dot_self_cross _ _, hsf, ?_⟩
  · rw [cross_dot_cross, hs, hf, hsf, Matrix.dotProduct_comm f, hsf]
    norm_num
  · rw [Matrix.dotProduct_comm, dot_cross_self]

lemma rot3_rowsArray (r0 r1 r2 : Fin 3 → ℝ) :
    rot3 (rowsArray r0 r1 r2) = Matrix.of ![r0, r1, r2] := by
  ext i j
  fin_cases i <;> fin_cases j <;> rfl

/-- On a non-degenerate input `lookAt` passes its three guards and issues both calls; the
array it hands to `glMultMatrixf` has rotation rows `s`, `s × f` and `-f`. -/
lemma lookAt_nondegenerate (eye center up : Fin 3 → ℝ)
    (h1 : eye ≠ center) (h2 : up ≠ 0) (h3 : (center - eye) ×₃ up ≠ 0) :
    lookAt (eye 0) (eye 1) (eye 2) (center 0) (center 1) (center 2) (up 0) (up 1) (up 2) =
      some [GLCall.glMultMatrixf (rowsArray
              (normalize (normalize (center - eye) ×₃ up))
              (normalize (normalize (center - eye) ×₃ up) ×₃ normalize (center - eye))
              (-normalize (center - eye))),
            GLCall.glTranslatef (-eye 0) (-eye 1) (-eye 2)] := by
  have hd : center - eye ≠ 0 := fun h => h1 (sub_eq_zero.mp h).symm
  have g1 : ¬ vlen (center - eye) = 0 := fun h => h1 ((vlen_sub_eq_zero_iff eye center).mp h)
  have g2 : ¬ vlen up = 0 := fun h => h2 ((vlen_eq_zero_iff up).mp h)
  have g3 : ¬ vlen (normalize (center - eye) ×₃ normalize up) = 0 :=
    fun h => h3 ((cross_normalize_eq_zero_iff hd h2).mp h)
  rw [lookAt_unfold, if_neg g1, if_neg g2, if_neg g3, side_eq h2]

lemma eq_vlen_smul_normalize {d : Fin 3 → ℝ} (h : d ≠ 0) : d = vlen d • normalize d := by
  have hl : vlen d ≠ 0 := fun h0 => h ((vlen_eq_zero_iff d).mp h0)
  rw [normalize_eq_smul, smul_smul, mul_inv_cancel₀ hl, one_smul]

/-- Unit forward vector keeps the cross product with `up` non-zero. -/
lemma cross_normalize_left_ne_zero {d up : Fin 3 → ℝ} (hd : d ≠ 0) (h3 : d ×₃ up ≠ 0) :
    normalize d ×₃ up ≠ 0 := by
  rw [normalize_eq_smul, LinearMap.map_smul₂]
  exact smul_ne_zero (inv_vlen_pos hd).ne' h3

lemma colMajor_rowsArray (r0 r1 r2 : Fin 3 → ℝ) :
    colMajor (rowsArray r0 r1 r2) =
      !![r0 0, r0 1, r0 2, 0; r1 0, r1 1, r1 2, 0; r2 0, r2 1, r2 2, 0; 0, 0, 0, 1] := by
  ext i j
  fin_cases i <;> fin_cases j <;> rfl

/-- The matrix of the two calls of `lookAt` sends `p` to the rotation applied to `p - e`. -/
lemma view_mulVec (r0 r1 r2 e p : Fin 3 → ℝ) :
    (colMajor (rowsArray r0 r1 r2) * translation (-e 0) (-e 1) (-e 2)) *ᵥ homog p =
      ![r0 ⬝ᵥ (p - e), r1 ⬝ᵥ (p - e), r2 ⬝ᵥ (p - e), 1] := by
  rw [colMajor_rowsArray]
  funext i
  fin_cases i <;>
    simp [translation, homog, Matrix.mulVec, Matrix.dotProduct, Matrix.mul_apply,
      Fin.sum_univ_four, Fin.sum_univ_three] <;> ring

lemma applyCalls_pair (C : Mat4) (m : Fin 16 → ℝ) (x y z : ℝ) :
    applyCalls C [GLCall.glMultMatrixf m, GLCall.glTranslatef x y z] =
      C * (colMajor m * translation x y z) := by
  simp [applyCalls, GLCall.apply, Matrix.mul_assoc]

lemma vlen_eq_one_of_dot {v : Fin 3 → ℝ} (h : v ⬝ᵥ v = 1) : vlen v = 1 := by
  rw [vec3_dotProduct] at h
  rw [vlen, h, Real.sqrt_one]

/-- A matrix with orthonormal rows times its transpose is the identity. -/
lemma rows_mul_transpose (r0 r1 r2 : Fin 3 → ℝ)
    (h00 : r0 ⬝ᵥ r0 = 1) (h11 : r1 ⬝ᵥ r1 = 1) (h22 : r2 ⬝ᵥ r2 = 1)
    (h01 : r0 ⬝ᵥ r1 = 0) (h02 : r0 ⬝ᵥ r2 = 0) (h12 : r1 ⬝ᵥ r2 = 0) :
    (Matrix.of ![r0, r1, r2] : Matrix (Fin 3) (Fin 3) ℝ) * (Matrix.of ![r0, r1, r2])ᵀ = 1 := by
  have key : ∀ (R : Fin 3 → Fin 3 → ℝ) (i j : Fin 3),
      ((Matrix.of R : Matrix (Fin 3) (Fin 3) ℝ) * (Matrix.of R)ᵀ) i j = R i ⬝ᵥ R j := by
    intro R i j
    rfl
  have h10 : r1 ⬝ᵥ r0 = 0 := by rw [Matrix.dotProduct_comm, h01]
  have h20 : r2 ⬝ᵥ r0 = 0 := by rw [Matrix.dotProduct_comm, h02]
  have h21 : r2 ⬝ᵥ r1 = 0 := by rw [Matrix.dotProduct_comm, h12]
  ext i j
  rw [key]
  fin_cases i <;> fin_cases j
  · exact h00
  · exact h01
  · exact h02
  · exact h10
  · exact h11
  · exact h12
  · exact h20
  · exact h21
  · exact h22

/-- C10: on every non-degenerate input (`eye ≠ center`, `up ≠ 0`, `up` not parallel to
`center - eye`; `up` neither unit nor orthogonal to the view direction), `lookAt` hands
`glMultMatrixf` an array whose rotation rows are `s = normalize (f × up)`, `u2 = s × f`
and `-f`, with `f = normalize (center - eye)`; each row has length 1, the rows are
pairwise orthogonal, and the rotation times its transpose is the identity. -/
theorem lookAt_rows_orthonormal (eye center up : Fin 3 → ℝ)
    (h1 : eye ≠ center) (h2 : up ≠ 0) (h3 : (center - eye) ×₃ up ≠ 0) :
    ∃ (m : Fin 16 → ℝ) (f s u2 : Fin 3 → ℝ),
      f = normalize (center - eye) ∧ s = normalize (f ×₃ up) ∧ u2 = s ×₃ f ∧
      lookAt (eye 0) (eye 1) (eye 2) (center 0) (center 1) (center 2) (up 0) (up 1) (up 2) =
        some [GLCall.glMultMatrixf m, GLCall.glTranslatef (-eye 0) (-eye 1) (-eye 2)] ∧
      rot3 m = Matrix.of ![s, u2, -f] ∧
      (vlen s = 1 ∧ vlen u2 = 1 ∧ vlen (-f) = 1) ∧
      (s ⬝ᵥ u2 = 0 ∧ s ⬝ᵥ (-f) = 0 ∧ u2 ⬝ᵥ (-f) = 0) ∧
      rot3 m * (rot3 m)ᵀ = 1 := by
  have hd : center - eye ≠ 0 := fun h => h1 (sub_eq_zero.mp h).symm
  have hf : normalize (center - eye) ⬝ᵥ normalize (center - eye) = 1 :=
    normalize_dot_self _ hd
  obtain ⟨hss, huu, hsu, hsf, huf⟩ :=
    frame_orthonormal (normalize (center - eye)) up hf (cross_normalize_left_ne_zero hd h3)
  have hff : (-normalize (center - eye)) ⬝ᵥ (-normalize (center - eye)) = 1 := by
    rw [Matrix.neg_dotProduct_neg, hf]
  have hsf' : normalize (normalize (center - eye) ×₃ up) ⬝ᵥ (-normalize (center - eye)) = 0 := by
    rw [Matrix.dotProduct_neg, hsf, neg_zero]
  have huf' : (normalize (normalize (center - eye) ×₃ up) ×₃ normalize (center - eye)) ⬝ᵥ
      (-normalize (center - eye)) = 0 := by
    rw [Matrix.dotProduct_neg, huf, neg_zero]
  refine ⟨_, _, _, _, rfl, rfl, rfl, lookAt_nondegenerate eye center up h1 h2 h3,
    rot3_rowsArray _ _ _,
    ⟨vlen_eq_one_of_dot hss, vlen_eq_one_of_dot huu, vlen_eq_one_of_dot hff⟩,
    ⟨hsu, hsf', huf'⟩, ?_⟩
  rw [rot3_rowsArray]
  exact rows_mul_transpose _ _ _ hss huu hff hsu hsf' huf'

/-- C10, at eye `(1, 2, 3)`, center `(4, 6, 3)` and the non-unit, non-orthogonal up
vector `(1, 0, 2)`. -/
theorem lookAt_rows_orthonormal_witness :
    ∃ (m : Fin 16 → ℝ) (f s u2 : Fin 3 → ℝ),
      f = normalize (![4, 6, 3] - ![1, 2, 3]) ∧ s = normalize (f ×₃ ![1, 0, 2]) ∧
      u2 = s ×₃ f ∧
      lookAt 1 2 3 4 6 3 1 0 2 =
        some [GLCall.glMultMatrixf m, GLCall.glTranslatef (-1) (-2) (-3)] ∧
      rot3 m = Matrix.of ![s, u2, -f] ∧
      (vlen s = 1 ∧ vlen u2 = 1 ∧ vlen (-f) = 1) ∧
      (s ⬝ᵥ u2 = 0 ∧ s ⬝ᵥ (-f) = 0 ∧ u2 ⬝ᵥ (-f) = 0) ∧
      rot3 m * (rot3 m)ᵀ = 1 :=
  lookAt_rows_orthonormal ![1, 2, 3] ![4, 6, 3] ![1, 0, 2]
    (by intro h; have := congrFun h 0; norm_num at this)
    (by intro h; have := congrFun h 0; norm_num at this)
    (by intro h; have := congrFun h 0; norm_num [cross_apply] at this)

/-- C6 (amended): over the reals, `lookAt` never reaches a division by zero, and it
returns without calling `glMultMatrixf` or `glTranslatef` exactly when `eye = center`, or
`up = 0`, or `(center - eye) × up = 0`.  On such an input the current matrix is left as
it was; on every other input the three divisors `flen`, `ulen`, `slen` are non-zero and
both calls are issued (whether they change the current matrix is not claimed). -/
theorem lookAt_noop_iff_degenerate (eye center up : Fin 3 → ℝ) :
    lookAt (eye 0) (eye 1) (eye 2) (center 0) (center 1) (center 2) (up 0) (up 1) (up 2)
      ≠ none ∧
    (lookAt (eye 0) (eye 1) (eye 2) (center 0) (center 1) (center 2) (up 0) (up 1) (up 2)
        = some [] ↔
      (eye = center ∨ up = 0 ∨ (center - eye) ×₃ up = 0)) ∧
    ((eye = center ∨ up = 0 ∨ (center - eye) ×₃ up = 0) →
      ∀ C : Mat4,
        (lookAt (eye 0) (eye 1) (eye 2) (center 0) (center 1) (center 2)
          (up 0) (up 1) (up 2)).map (applyCalls C) = some C) ∧
    (¬ (eye = center ∨ up = 0 ∨ (center - eye) ×₃ up = 0) →
      (vlen (center - eye) ≠ 0 ∧ vlen up ≠ 0 ∧
        vlen (normalize (center - eye) ×₃ normalize up) ≠ 0) ∧
      ∃ m : Fin 16 → ℝ,
        lookAt (eye 0) (eye 1) (eye 2) (center 0) (center 1) (center 2) (up 0) (up 1) (up 2)
          = some [GLCall.glMultMatrixf m, GLCall.glTranslatef (-eye 0) (-eye 1) (-eye 2)]) := by
  have hdeg : (eye = center ∨ up = 0 ∨ (center - eye) ×₃ up = 0) →
      lookAt (eye 0) (eye 1) (eye 2) (center 0) (center 1) (center 2) (up 0) (up 1) (up 2)
        = some [] := by
    intro h
    rw [lookAt_unfold]
    split_ifs with g1 g2 g3
    · rfl
    · rfl
    · rfl
    · exfalso
      rcases h with h | h | h
      · exact g1 ((vlen_sub_eq_zero_iff eye center).mpr h)
      · exact g2 ((vlen_eq_zero_iff up).mpr h)
      · apply g3
        rw [vlen_eq_zero_iff, cross_normalize, h, smul_zero]
  have hnon : ¬ (eye = center ∨ up = 0 ∨ (center - eye) ×₃ up = 0) →
      lookAt (eye 0) (eye 1) (eye 2) (center 0) (center 1) (center 2) (up 0) (up 1) (up 2)
        = some [GLCall.glMultMatrixf (rowsArray
              (normalize (normalize (center - eye) ×₃ up))
              (normalize (normalize (center - eye) ×₃ up) ×₃ normalize (center - eye))
              (-normalize (center - eye))),
            GLCall.glTranslatef (-eye 0) (-eye 1) (-eye 2)] := by
    intro h
    push_neg at h
    exact lookAt_nondegenerate eye center up h.1 h.2.1 h.2.2
  refine ⟨?_, ⟨?_, hdeg⟩, ?_, ?_⟩
  · by_cases h : eye = center ∨ up = 0 ∨ (center - eye) ×₃ up = 0
    · rw [hdeg h]; exact Option.some_ne_none _
    · rw [hnon h]; exact Option.some_ne_none _
  · intro h0
    by_contra h
    rw [hnon h] at h0
    simp at h0
  · intro h C
    rw [hdeg h]
    rfl
  · intro h
    refine ⟨?_, _, hnon h⟩
    push_neg at h
    have hd : center - eye ≠ 0 := fun h0 => h.1 (sub_eq_zero.mp h0).symm
    exact ⟨fun h0 => h.1 ((vlen_sub_eq_zero_iff eye center).mp h0),
      fun h0 => h.2.1 ((vlen_eq_zero_iff up).mp h0),
      fun h0 => h.2.2 ((cross_normalize_eq_zero_iff hd h.2.1).mp h0)⟩

/-- C6, at the degenerate input eye = center = `(1, 1, 1)`, up `(0, 1, 0)`: the identity
current matrix is left as it was. -/
theorem lookAt_noop_iff_degenerate_witness :
    (lookAt 1 1 1 1 1 1 0 1 0).map (applyCalls 1) = some 1 :=
  (lookAt_noop_iff_degenerate ![1, 1, 1] ![1, 1, 1] ![0, 1, 0]).2.2.1 (Or.inl rfl) 1

/-- C6 (counterexample): at eye the origin, center `(0, 0, -1)` and up `(0, 1, 0)` the
input is not degenerate and `lookAt` issues both calls, with the identity array and a
zero translation, so every current matrix is left unchanged. -/
theorem lookAt_identity_camera :
    ¬ ((0 : Fin 3 → ℝ) = ![0, 0, -1] ∨ (![0, 1, 0] : Fin 3 → ℝ) = 0 ∨
        (![0, 0, -1] - (0 : Fin 3 → ℝ)) ×₃ ![0, 1, 0] = 0) ∧
    ∃ (m : Fin 16 → ℝ) (x y z : ℝ),
      lookAt 0 0 0 0 0 (-1) 0 1 0 =
        some [GLCall.glMultMatrixf m, GLCall.glTranslatef x y z] ∧
      ∀ C : Mat4,
        applyCalls C [GLCall.glMultMatrixf m, GLCall.glTranslatef x y z] = C := by
  constructor
  · rintro (h | h | h)
    · have := congrFun h 2
      norm_num at this
    · have := congrFun h 1
      norm_num at this
    · have := congrFun h 0
      norm_num [cross_apply] at this
  · refine ⟨![1, 0, 0, 0, 0, 1, 0, 0, 0, 0, 1, 0, 0, 0, 0, 1], 0, 0, 0, ?_, ?_⟩
    · simp [lookAt, fdiv]
      norm_num
    · intro C
      have hm : colMajor ![1, 0, 0, 0, 0, 1, 0, 0, 0, 0, 1, 0, 0, 0, 0, 1] = 1 := by
        ext i j
        fin_cases i <;> fin_cases j <;> rfl
      have ht : translation 0 0 0 = 1 := by
        ext i j
        fin_cases i <;> fin_cases j <;> rfl
      rw [applyCalls_pair, hm, ht, mul_one, mul_one]

/-- C7: for fixed field of view and near distance the frustum `perspectiveGL` hands to
`glFrustum` is the symmetric `[-fW, fW] x [-fH, fH]` with `fH = tan (fovY / 2) * zNear`
the same for every aspect and `fW = fH * aspect`; from aspect 1 to aspect 2 the
half-width doubles while `fH`, `zNear` and `zFar` stay as they were. -/
theorem perspectiveGL_aspect (fovY_deg zNear zFar : ℝ) :
    ∃ fH : ℝ, fH = Real.tan (fovY_deg * Real.pi / 180 / 2) * zNear ∧
      (∀ aspect : ℝ, perspectiveGL fovY_deg aspect zNear zFar =
        [GLCall.glFrustum (-(fH * aspect)) (fH * aspect) (-fH) fH zNear zFar]) ∧
      (∃ fW : ℝ,
        perspectiveGL fovY_deg 1 zNear zFar =
          [GLCall.glFrustum (-fW) fW (-fH) fH zNear zFar] ∧
        perspectiveGL fovY_deg 2 zNear zFar =
          [GLCall.glFrustum (-(2 * fW)) (2 * fW) (-fH) fH zNear zFar]) := by
  have hlit : (180.0 : ℝ) = 180 := by norm_num
  have hlit2 : (2.0 : ℝ) = 2 := by norm_num
  refine ⟨_, rfl, ?_, Real.tan (fovY_deg * Real.pi / 180 / 2) * zNear, ?_, ?_⟩
  · intro aspect
    simp only [perspectiveGL, hlit, hlit2]
  · simp only [perspectiveGL, hlit, hlit2, mul_one]
  · simp only [perspectiveGL, hlit, hlit2, mul_comm _ (2 : ℝ)]

lemma dot_smul_of_dot_eq_zero {r f : Fin 3 → ℝ} (L : ℝ) (h : r ⬝ᵥ f = 0) :
    r ⬝ᵥ (L • f) = 0 := by
  rw [Matrix.dotProduct_smul, h, smul_zero]

lemma rot3_rowsArray_mulVec (r0 r1 r2 v : Fin 3 → ℝ) :
    rot3 (rowsArray r0 r1 r2) *ᵥ v = ![r0 ⬝ᵥ v, r1 ⬝ᵥ v, r2 ⬝ᵥ v] := by
  rw [rot3_rowsArray]
  funext i
  fin_cases i <;> rfl

/-- The view transform of a non-degenerate `lookAt`: the point `p` goes to the rotation
applied to `p - eye`, and the center goes to `(0, 0, -|center - eye|)`. -/
lemma lookAt_view (eye center up : Fin 3 → ℝ)
    (h1 : eye ≠ center) (h2 : up ≠ 0) (h3 : (center - eye) ×₃ up ≠ 0) :
    ∃ m : Fin 16 → ℝ,
      lookAt (eye 0) (eye 1) (eye 2) (center 0) (center 1) (center 2) (up 0) (up 1) (up 2) =
        some [GLCall.glMultMatrixf m, GLCall.glTranslatef (-eye 0) (-eye 1) (-eye 2)] ∧
      (∀ C : Mat4,
        applyCalls C [GLCall.glMultMatrixf m, GLCall.glTranslatef (-eye 0) (-eye 1) (-eye 2)]
          = C * applyCalls 1
              [GLCall.glMultMatrixf m, GLCall.glTranslatef (-eye 0) (-eye 1) (-eye 2)]) ∧
      (∀ p : Fin 3 → ℝ,
        applyCalls 1 [GLCall.glMultMatrixf m, GLCall.glTranslatef (-eye 0) (-eye 1) (-eye 2)]
          *ᵥ homog p = homog (rot3 m *ᵥ (p - eye))) ∧
      (∀ i : Fin 3, rot3 m i ≠ 0) ∧
      0 < vlen (center - eye) ∧
      applyCalls 1 [GLCall.glMultMatrixf m, GLCall.glTranslatef (-eye 0) (-eye 1) (-eye 2)]
        *ᵥ homog center = ![0, 0, -vlen (center - eye), 1] := by
  have hd : center - eye ≠ 0 := fun h => h1 (sub_eq_zero.mp h).symm
  have hL : 0 < vlen (center - eye) :=
    lt_of_le_of_ne (vlen_nonneg _) fun h0 => hd ((vlen_eq_zero_iff _).mp h0.symm)
  have hf : normalize (center - eye) ⬝ᵥ normalize (center - eye) = 1 :=
    normalize_dot_self _ hd
  obtain ⟨hss, huu, -, hsf, huf⟩ :=
    frame_orthonormal (normalize (center - eye)) up hf (cross_normalize_left_ne_zero hd h3)
  have hdf := eq_vlen_smul_normalize hd
  have e0 : normalize (normalize (center - eye) ×₃ up) ⬝ᵥ (center - eye) = 0 := by
    have h := dot_smul_of_dot_eq_zero (vlen (center - eye)) hsf
    rwa [← hdf] at h
  have e1 : (normalize (normalize (center - eye) ×₃ up) ×₃ normalize (center - eye)) ⬝ᵥ
      (center - eye) = 0 := by
    have h := dot_smul_of_dot_eq_zero (vlen (center - eye)) huf
    rwa [← hdf] at h
  have e2 : (-normalize (center - eye)) ⬝ᵥ (center - eye) = -vlen (center - eye) := by
    have h : (-normalize (center - eye)) ⬝ᵥ
        (vlen (center - eye) • normalize (center - eye)) = -vlen (center - eye) := by
      rw [Matrix.dotProduct_smul, Matrix.neg_dotProduct, hf, smul_eq_mul, mul_neg, mul_one]
    rwa [← hdf] at h
  have hV : ∀ C : Mat4, applyCalls C
      [GLCall.glMultMatrixf (rowsArray
          (normalize (normalize (center - eye) ×₃ up))
          (normalize (normalize (center - eye) ×₃ up) ×₃ normalize (center - eye))
          (-normalize (center - eye))),
        GLCall.glTranslatef (-eye 0) (-eye 1) (-eye 2)]
      = C * (colMajor (rowsArray
          (normalize (normalize (center - eye) ×₃ up))
          (normalize (normalize (center - eye) ×₃ up) ×₃ normalize (center - eye))
          (-normalize (center - eye))) * translation (-eye 0) (-eye 1) (-eye 2)) :=
    fun C => applyCalls_pair C _ _ _ _
  have hrow : ∀ r : Fin 3 → ℝ, r ⬝ᵥ r = 1 → r ≠ 0 := by
    intro r hr h0
    rw [h0, Matrix.zero_dotProduct] at hr
    exact zero_ne_one hr
  have hff : (-normalize (center - eye)) ⬝ᵥ (-normalize (center - eye)) = 1 := by
    rw [Matrix.neg_dotProduct_neg, hf]
  refine ⟨_, lookAt_nondegenerate eye center up h1 h2 h3, ?_, ?_, ?_, hL, ?_⟩
  · intro C
    rw [hV C, hV 1, one_mul]
  · intro p
    rw [hV 1, one_mul, view_mulVec, rot3_rowsArray_mulVec]
    rfl
  · intro i
    rw [rot3_rowsArray]
    fin_cases i
    · exact hrow _ hss
    · exact hrow _ huu
    · exact hrow _ hff
  · rw [hV 1, one_mul, view_mulVec, e0, e1, e2]

/-- C5: on every non-degenerate input the transform `lookAt` applies to the current
matrix, `glMultMatrixf(mat)` followed by `glTranslatef(-eye)`, sends a point `p` to the
rotation applied to `p - eye` and sends the center to `(0, 0, -d)` with
`d = |center - eye| > 0`, on the negative z axis.  For the configuration of `renderScene`,
eye `(0, 60, 0.01)`, center the origin, up `(0, 0, -1)`, no guard fires (both calls are
issued), no row of the rotation is zero, and the center goes to
`(0, 0, -sqrt (60^2 + 0.01^2))`. -/
theorem lookAt_maps_center :
    (∀ eye center up : Fin 3 → ℝ,
      eye ≠ center → up ≠ 0 → (center - eye) ×₃ up ≠ 0 →
      ∃ m : Fin 16 → ℝ,
        lookAt (eye 0) (eye 1) (eye 2) (center 0) (center 1) (center 2)
            (up 0) (up 1) (up 2) =
          some [GLCall.glMultMatrixf m, GLCall.glTranslatef (-eye 0) (-eye 1) (-eye 2)] ∧
        (∀ C : Mat4,
          applyCalls C
              [GLCall.glMultMatrixf m, GLCall.glTranslatef (-eye 0) (-eye 1) (-eye 2)]
            = C * applyCalls 1
              [GLCall.glMultMatrixf m, GLCall.glTranslatef (-eye 0) (-eye 1) (-eye 2)]) ∧
        (∀ p : Fin 3 → ℝ,
          applyCalls 1
              [GLCall.glMultMatrixf m, GLCall.glTranslatef (-eye 0) (-eye 1) (-eye 2)]
            *ᵥ homog p = homog (rot3 m *ᵥ (p - eye))) ∧
        0 < vlen (center - eye) ∧
        applyCalls 1
            [GLCall.glMultMatrixf m, GLCall.glTranslatef (-eye 0) (-eye 1) (-eye 2)]
          *ᵥ homog center = ![0, 0, -vlen (center - eye), 1]) ∧
    (∃ m : Fin 16 → ℝ,
      renderScene.view =
        some [GLCall.glMultMatrixf m, GLCall.glTranslatef 0 (-60) (-0.01)] ∧
      renderScene.view ≠ some [] ∧
      (∀ i : Fin 3, rot3 m i ≠ 0) ∧
      applyCalls 1 [GLCall.glMultMatrixf m, GLCall.glTranslatef 0 (-60) (-0.01)]
        *ᵥ homog 0 = ![0, 0, -Real.sqrt (60 ^ 2 + 0.01 ^ 2), 1]) := by
  constructor
  · intro eye center up h1 h2 h3
    obtain ⟨m, hm, hC, hp, -, hL, hc⟩ := lookAt_view eye center up h1 h2 h3
    exact ⟨m, hm, hC, hp, hL, hc⟩
  · have h1 : (![0, 60, 0.01] : Fin 3 → ℝ) ≠ 0 := by
      intro h
      have := congrFun h 1
      norm_num at this
    have h2 : (![0, 0, -1] : Fin 3 → ℝ) ≠ 0 := by
      intro h
      have := congrFun h 2
      norm_num at this
    have h3 : ((0 : Fin 3 → ℝ) - ![0, 60, 0.01]) ×₃ ![0, 0, -1] ≠ 0 := by
      intro h
      have := congrFun h 0
      norm_num [cross_apply] at this
    obtain ⟨m, hm, -, -, hrows, -, hc⟩ := lookAt_view ![0, 60, 0.01] 0 ![0, 0, -1] h1 h2 h3
    have hview : renderScene.view = lookAt 0 60 0.01 0 0 0 0 0 (-1) := by
      have a0 : (0.0 : ℝ) = 0 := by norm_num
      have a1 : (60.0 : ℝ) = 60 := by norm_num
      have a2 : (1.0 : ℝ) = 1 := by norm_num
      simp only [renderScene.view, a0, a1, a2]
    have hlen : vlen ((0 : Fin 3 → ℝ) - ![0, 60, 0.01]) = Real.sqrt (60 ^ 2 + 0.01 ^ 2) := by
      simp only [vlen, Pi.sub_apply, Pi.zero_apply, Matrix.cons_val_zero, Matrix.cons_val_one,
        Matrix.head_cons, Matrix.cons_val_two, Matrix.tail_cons]
      congr 1
      norm_num
    simp only [Pi.zero_apply, Matrix.cons_val_zero, Matrix.cons_val_one, Matrix.head_cons,
      Matrix.cons_val_two, Matrix.tail_cons, neg_zero] at hm hc
    rw [hlen] at hc
    refine ⟨m, hview.trans hm, ?_, hrows, hc⟩
    rw [hview, hm]
    simp

/-- C5, at eye `(1, 2, 3)`, center `(4, 6, 3)`, up `(0, 0, 1)`. -/
theorem lookAt_maps_center_witness :
    ∃ m : Fin 16 → ℝ,
      lookAt 1 2 3 4 6 3 0 0 1 =
        some [GLCall.glMultMatrixf m, GLCall.glTranslatef (-1) (-2) (-3)] ∧
      applyCalls 1 [GLCall.glMultMatrixf m, GLCall.glTranslatef (-1) (-2) (-3)]
        *ᵥ homog ![4, 6, 3] = ![0, 0, -vlen (![4, 6, 3] - ![1, 2, 3]), 1] := by
  obtain ⟨m, hm, -, -, -, hc⟩ := lookAt_maps_center.1 ![1, 2, 3] ![4, 6, 3] ![0, 0, 1]
    (by intro h; have := congrFun h 0; norm_num at this)
    (by intro h; have := congrFun h 2; norm_num at this)
    (by intro h; have := congrFun h 0; norm_num [cross_apply] at this)
  exact ⟨m, hm, hc⟩

end SolarSystem
